import Mathlib

/-!
Shallow embedding of the AbodeX vacation-rental backend's booking,
review, confirmation, host-ranking and authentication logic, together
with theorems checking the specification's statements against it.

Conventions used throughout:
* monetary amounts and schema `Number` fields are rationals (`ℚ`);
* dates are integer millisecond timestamps (`ℤ`), as produced by
  JavaScript `Date` subtraction;
* document identifiers are natural numbers;
* calls to external collaborators (payment gateway, SMS, email, token
  verifier, document store lookups) are passed in as function arguments
  returning `Option`/`Except`, so a thrown exception is an `error`/`none`.
-/

namespace AbodeX

abbrev DocId := Nat

/-- `discountType` enum of `propertySchema.discounts`. -/
inductive DiscountType where
  | percentage
  | fixed
deriving DecidableEq

/-- One entry of `propertySchema.discounts`: `value`, optional
`minNights`, and the `[validFrom, validUntil]` window. -/
structure Discount where
  discountType : DiscountType
  value : ℚ
  minNights : Option ℚ
  validFrom : ℤ
  validUntil : ℤ
deriving DecidableEq

/-- One entry of `propertySchema.availability`. -/
structure AvailabilityWindow where
  startDate : ℤ
  endDate : ℤ
  isAvailable : Bool
deriving DecidableEq

/-- The slice of `propertySchema` the booking logic reads. -/
structure Property where
  id : DocId
  pricePerNight : ℚ
  availability : List AvailabilityWindow
  discounts : List Discount
  isActive : Bool
deriving DecidableEq

/-- `status` enum of `bookingSchema`. -/
inductive BookingStatus where
  | pending
  | confirmed
  | cancelled
  | completed
deriving DecidableEq

/-- `paymentStatus` enum of `bookingSchema`. -/
inductive PaymentStatus where
  | pending
  | paid
  | refunded
  | failed
deriving DecidableEq

/-- The slice of `bookingSchema` the handlers read and write. -/
structure Booking where
  id : DocId
  guest : DocId
  property : DocId
  checkIn : ℤ
  checkOut : ℤ
  guestsCount : ℤ
  totalAmount : ℚ
  discountAmount : ℚ
  status : BookingStatus
  paymentStatus : PaymentStatus
  paymentIntentId : Option DocId
  transactionId : Option DocId
deriving DecidableEq

/-- A Stripe payment intent as seen by the handlers: its id, its
`status` string, and the `client_secret` returned to the client. -/
structure PaymentIntent where
  id : DocId
  status : String
  clientSecret : String
deriving DecidableEq

def succeededStr : String := "succeeded"

/-- `1000 * 60 * 60 * 24`, the divisor in the nights computation. -/
def msPerDay : ℤ := 1000 * 60 * 60 * 24

/-- `Math.ceil((new Date(checkOut) - new Date(checkIn)) / (1000*60*60*24))`
from the `POST /bookings` handler, over exact arithmetic. -/
def nightsOf (checkIn checkOut : ℤ) : ℤ :=
  Int.ceil (((checkOut - checkIn : ℤ) : ℚ) / (msPerDay : ℚ))

/-- The candidate amount of a discount against a running total:
`totalAmount * value / 100` for `percentage`, `value` for `fixed`. -/
def discountValueOn (totalAmount : ℚ) (d : Discount) : ℚ :=
  match d.discountType with
  | .percentage => totalAmount * d.value / 100
  | .fixed => d.value

/-- `!d.minNights || nights >= d.minNights`: a missing `minNights` passes,
and so does a stored `minNights` of `0` (JavaScript falsiness). -/
def minNightsOk (nights : ℤ) (d : Discount) : Bool :=
  match d.minNights with
  | none => true
  | some m => m = 0 ∨ (m : ℚ) ≤ (nights : ℚ)

/-- The filter predicate over `property.discounts` in `POST /bookings`:
`validFrom <= checkIn && validUntil >= checkOut && (!minNights || nights >= minNights)`. -/
def isApplicableDiscount (checkIn checkOut nights : ℤ) (d : Discount) : Bool :=
  decide (d.validFrom ≤ checkIn) && decide (checkOut ≤ d.validUntil) &&
    minNightsOk nights d

/-- `applicableDiscounts.reduce((prev, current) => amount(current) > amount(prev) ? current : prev)`:
a left fold whose accumulator starts at the first list element. -/
def bestDiscountAux (totalAmount : ℚ) : Discount → List Discount → Discount
  | prev, [] => prev
  | prev, c :: rest =>
      bestDiscountAux totalAmount
        (if discountValueOn totalAmount prev < discountValueOn totalAmount c then c
         else prev) rest

/-- The price/discount computation of `POST /bookings` (lines 150-183):
returns `(totalAmount, discountAmount)` after the best applicable
discount, if any, has been subtracted. -/
def computePrice (pricePerNight : ℚ) (checkIn checkOut : ℤ)
    (discounts : List Discount) : ℚ × ℚ :=
  let nights := nightsOf checkIn checkOut
  let totalAmount : ℚ := (nights : ℚ) * pricePerNight
  let applicableDiscounts :=
    discounts.filter (isApplicableDiscount checkIn checkOut nights)
  match applicableDiscounts with
  | [] => (totalAmount, 0)
  | d :: ds =>
      let best := bestDiscountAux totalAmount d ds
      let amt := discountValueOn totalAmount best
      (totalAmount - amt, amt)

/-- Responses of the `POST /bookings` handler. -/
inductive CreateBookingResponse where
  | validationError
  | propertyNotFound
  | serverError
  | bookingCreated (b : Booking) (clientSecret : String)
deriving DecidableEq

/-- The `POST /bookings` handler: express-validator guard on
`guestsCount`, property lookup (404 on `none`), price computation,
payment-intent creation (`error` models a thrown exception, caught by
the handler's `catch` as a 500), then booking construction and save.
Returns the response and the booking written to the store, if any. -/
def createBooking (newId guestId propertyId : DocId) (findProperty : Option Property)
    (checkIn checkOut guestsCount : ℤ)
    (createIntent : ℚ → Except Unit PaymentIntent) :
    CreateBookingResponse × Option Booking :=
  if guestsCount < 1 then (.validationError, none)
  else
    match findProperty with
    | none => (.propertyNotFound, none)
    | some property =>
        let priced := computePrice property.pricePerNight checkIn checkOut property.discounts
        match createIntent priced.1 with
        | .error _ => (.serverError, none)
        | .ok intent =>
            let booking : Booking :=
              { id := newId, guest := guestId, property := propertyId
                checkIn := checkIn, checkOut := checkOut, guestsCount := guestsCount
                totalAmount := priced.1, discountAmount := priced.2
                status := .pending, paymentStatus := .pending
                paymentIntentId := some intent.id, transactionId := none }
            (.bookingCreated booking intent.clientSecret, some booking)

def smsFailedLog : String := "SMS sending failed:"

/-- Responses of the `POST /bookings/:id/confirm` handler. -/
inductive ConfirmResponse where
  | bookingNotFound
  | paymentFailed
  | serverError
  | confirmedOk
deriving DecidableEq

/-- Result of `POST /bookings/:id/confirm`: the HTTP outcome, the
booking as stored afterwards (if the lookup found one), the property
document afterwards, and the server-side log lines. -/
structure ConfirmOutcome where
  response : ConfirmResponse
  booking : Option Booking
  property : Property
  logs : List String
deriving DecidableEq

/-- The `POST /bookings/:id/confirm` handler: booking lookup and guest
ownership check (404), `confirmPaymentIntent` (a thrown error is caught
by the handler's `catch` as a 500), then on `status === "succeeded"` the
booking is saved as confirmed/paid, an unavailable `[checkIn, checkOut]`
window is pushed onto the property's availability, and the confirmation
SMS is attempted inside its own try/catch that only logs a failure. -/
def confirmBooking (findBooking : Option Booking) (userId : DocId)
    (confirmIntent : Option DocId → Except Unit PaymentIntent)
    (sms : Except Unit Unit) (property : Property) : ConfirmOutcome :=
  match findBooking with
  | none => ⟨.bookingNotFound, none, property, []⟩
  | some b =>
      if b.guest ≠ userId then ⟨.bookingNotFound, some b, property, []⟩
      else
        match confirmIntent b.paymentIntentId with
        | .error _ => ⟨.serverError, some b, property, []⟩
        | .ok intent =>
            if intent.status = succeededStr then
              let b' : Booking :=
                { b with status := .confirmed, paymentStatus := .paid
                         transactionId := some intent.id }
              let property' : Property :=
                { property with availability := property.availability ++
                    [{ startDate := b.checkIn, endDate := b.checkOut
                       isAvailable := false }] }
              match sms with
              | .ok _ => ⟨.confirmedOk, some b', property', []⟩
              | .error _ => ⟨.confirmedOk, some b', property', [smsFailedLog]⟩
            else ⟨.paymentFailed, some b, property, []⟩

/-- The slice of `reviewSchema` the handlers read and write. -/
structure Review where
  id : DocId
  guest : DocId
  property : DocId
  booking : DocId
  rating : ℤ
  hostReply : Option String
deriving DecidableEq

/-- The document-store state the review endpoint touches. -/
structure ReviewState where
  bookings : List Booking
  reviews : List Review
deriving DecidableEq

/-- Responses of the `POST /reviews` handler. -/
inductive AddReviewResponse where
  | validationError
  | bookingNotFound
  | reviewExists
  | created (r : Review)
deriving DecidableEq

/-- `Booking.findOne({_id, guest, property, status: "completed"})`. -/
def findCompletedBooking (bookings : List Booking)
    (bookingId guestId propertyId : DocId) : Option Booking :=
  bookings.find? fun b =>
    b.id = bookingId ∧ b.guest = guestId ∧ b.property = propertyId ∧
      b.status = BookingStatus.completed

/-- `Review.findOne({ booking: bookingId })`. -/
def findReviewForBooking (reviews : List Review) (bookingId : DocId) :
    Option Review :=
  reviews.find? fun r => r.booking = bookingId

/-- The review document built by the `POST /reviews` handler. -/
def mkReview (newId guestId bookingId propertyId : DocId) (rating : ℤ) : Review :=
  { id := newId, guest := guestId, property := propertyId
    booking := bookingId, rating := rating, hostReply := none }

/-- The `POST /reviews` handler: express-validator guards on `rating`
(integer in `[1,5]`) and `comment` (length at least 10), the completed
matching booking lookup (404), the duplicate-review check (400), then
the save. Returns the response and the new store state. -/
def addReview (newId guestId bookingId propertyId : DocId) (rating : ℤ)
    (commentLen : ℕ) (st : ReviewState) : AddReviewResponse × ReviewState :=
  if rating < 1 ∨ 5 < rating ∨ commentLen < 10 then (.validationError, st)
  else
    match findCompletedBooking st.bookings bookingId guestId propertyId with
    | none => (.bookingNotFound, st)
    | some _ =>
        match findReviewForBooking st.reviews bookingId with
        | some _ => (.reviewExists, st)
        | none =>
            let r := mkReview newId guestId bookingId propertyId rating
            (.created r, { st with reviews := st.reviews ++ [r] })

/-- `hostTag` enum of `hostSchema`. -/
inductive HostTag where
  | bronze
  | silver
  | gold
deriving DecidableEq

/-- The slice of `hostSchema` the ranking pass reads and writes. -/
structure HostRec where
  id : DocId
  earnings : ℚ
  hostTag : Option HostTag
deriving DecidableEq

/-- The tag picked for the host at 0-based `index` among `n` hosts in
`GET /hosts` of the admin router: `percentile = (index + 1) / n`, then
`gold` if `percentile <= 0.01`, else `silver` if `<= 0.1`, else `bronze`
if `<= 0.3`, else `null`. -/
def hostTagFor (index n : ℕ) : Option HostTag :=
  let percentile : ℚ := ((index : ℚ) + 1) / (n : ℚ)
  if percentile ≤ 1 / 100 then some .gold
  else if percentile ≤ 1 / 10 then some .silver
  else if percentile ≤ 3 / 10 then some .bronze
  else none

/-- The `sortedHosts.forEach((host, index) => ...)` pass, carrying the
running index; `n` is `sortedHosts.length`. -/
def assignTagsFrom (n start : ℕ) : List HostRec → List HostRec
  | [] => []
  | h :: t => { h with hostTag := hostTagFor start n } :: assignTagsFrom n (start + 1) t

/-- Tag recomputation over an (already sorted) host list. -/
def assignTags (hosts : List HostRec) : List HostRec :=
  assignTagsFrom hosts.length 0 hosts

/-- `role` enum of `userSchema` as used by the middleware. -/
inductive Role where
  | guest
  | host
  | admin
deriving DecidableEq

/-- The slice of a user document the middleware reads. -/
structure User where
  id : DocId
  role : Role
deriving DecidableEq

/-- The two verification secrets of the middleware module. -/
structure AuthEnv where
  jwtSecret : String
  adminSecret : String

/-- Outcome of an authentication middleware: 401 with a message, or the
request proceeding with `req.user` set. -/
inductive AuthResult where
  | unauthorized (message : String)
  | ok (u : User)
deriving DecidableEq

def noTokenMsg : String := "Access denied. No token provided."
def invalidTokenMsg : String := "Token is not valid."
def hostRequiredMsg : String := "Host access required."
def bearerTag : String := "Bearer "
def emptyToken : String := ""

/-- If the character list starts with the pattern, the remainder after
it; `none` otherwise. -/
def stripLeading : List Char → List Char → Option (List Char)
  | rest, [] => some rest
  | [], _ :: _ => none
  | c :: cs, p :: ps => if c = p then stripLeading cs ps else none

/-- JavaScript `String.prototype.replace` with a string pattern: only
the first occurrence of the pattern is replaced. -/
def replaceFirst (pattern replacement : List Char) : List Char → List Char
  | [] => []
  | c :: cs =>
      match stripLeading (c :: cs) pattern with
      | some rest => replacement ++ rest
      | none => c :: replaceFirst pattern replacement cs

/-- `req.header("Authorization")?.replace("Bearer ", "")`. -/
def extractToken (header : String) : String :=
  ⟨replaceFirst bearerTag.data emptyToken.data header.data⟩

/-- The `authenticateHost` middleware: missing/empty token is 401,
`jwt.verify(token, process.env.JWT_SECRET)` throwing (modelled by
`verify` returning `none`) is 401, unknown user is 401, and a user whose
role is neither `host` nor `admin` is 401; otherwise the request
proceeds. -/
def authenticateHost (verify : String → String → Option DocId)
    (findUser : DocId → Option User) (env : AuthEnv)
    (header : Option String) : AuthResult :=
  match header with
  | none => .unauthorized noTokenMsg
  | some h =>
      let token := extractToken h
      if token = emptyToken then .unauthorized noTokenMsg
      else
        match verify token env.jwtSecret with
        | none => .unauthorized invalidTokenMsg
        | some uid =>
            match findUser uid with
            | none => .unauthorized hostRequiredMsg
            | some user =>
                if user.role ≠ .host ∧ user.role ≠ .admin then
                  .unauthorized hostRequiredMsg
                else .ok user

/-- Responses of the `POST /register` handler. -/
inductive RegisterResponse where
  | userExists
  | serverError
  | created (token : String)
deriving DecidableEq

/-- The `POST /register` handler, reduced to the steps relevant to
error propagation: duplicate-email check (400), user save, verification
email send with no surrounding try/catch (a failure reaches the
handler's `catch` and becomes a 500 - after the user was saved), then
the 201 response. Returns the response and the user document written. -/
def registerUser (findExisting : Option User) (newUser : User)
    (sendEmail : Except Unit Unit) (authToken : String) :
    RegisterResponse × Option User :=
  match findExisting with
  | some _ => (.userExists, none)
  | none =>
      match sendEmail with
      | .error _ => (.serverError, some newUser)
      | .ok _ => (.created authToken, some newUser)

/-! ### Spec-side comparison definitions and concrete test fixtures -/

/-- The discount-eligibility predicate exactly as the claim words it:
the `[validFrom, validUntil]` window covers `[checkIn, checkOut]` and
`minNights`, when present, is at most `nights`. -/
def claimEligibleDiscount (checkIn checkOut nights : ℤ) (d : Discount) : Bool :=
  decide (d.validFrom ≤ checkIn) && decide (checkOut ≤ d.validUntil) &&
    (match d.minNights with
     | none => true
     | some m => decide (m ≤ ((nights : ℤ) : ℚ)))

/-- The worked example of the spec: a 20% discount with `minNights 3`,
valid across the whole stay. -/
def exampleDiscount : Discount :=
  { discountType := .percentage, value := 20, minNights := some 3
    validFrom := -1, validUntil := 345600000 }

/-- A discount stored with `minNights: 0`, whose window fields satisfy
both window inequalities for a reversed stay. -/
def zeroMinNightsDiscount : Discount :=
  { discountType := .percentage, value := 20, minNights := some 0
    validFrom := 0, validUntil := 0 }

/-- A fixed discount worth more than one night at 100. -/
def oversizedFixedDiscount : Discount :=
  { discountType := .fixed, value := 200, minNights := none
    validFrom := 0, validUntil := 86400000 }

/-- A property with no discounts, 100 per night. -/
def smallProperty : Property :=
  { id := 3, pricePerNight := 100, availability := []
    discounts := [], isActive := true }

def clientSecretEx : String := "cs_test_123"

/-- A payment intent whose status is `succeeded`. -/
def succeededIntent : PaymentIntent :=
  { id := 7, status := succeededStr, clientSecret := clientSecretEx }

/-- A payment gateway that always succeeds. -/
def okIntent : ℚ → Except Unit PaymentIntent := fun _ => .ok succeededIntent

/-- A payment gateway whose confirmation always succeeds. -/
def okConfirmIntent : Option DocId → Except Unit PaymentIntent :=
  fun _ => .ok succeededIntent

/-- A payment gateway whose confirmation always throws. -/
def errConfirmIntent : Option DocId → Except Unit PaymentIntent :=
  fun _ => .error ()

/-- A pending booking owned by guest 2. -/
def pendingBookingEx : Booking :=
  { id := 10, guest := 2, property := 3, checkIn := 0, checkOut := 86400000
    guestsCount := 2, totalAmount := 100, discountAmount := 0
    status := .pending, paymentStatus := .pending
    paymentIntentId := some 7, transactionId := none }

/-- A completed booking owned by guest 2 on property 3. -/
def completedBookingEx : Booking :=
  { id := 20, guest := 2, property := 3, checkIn := 0, checkOut := 86400000
    guestsCount := 1, totalAmount := 100, discountAmount := 0
    status := .completed, paymentStatus := .paid
    paymentIntentId := some 7, transactionId := some 8 }

/-- An existing review of `completedBookingEx`. -/
def reviewEx : Review :=
  { id := 31, guest := 2, property := 3, booking := 20, rating := 5
    hostReply := none }

/-- A store state holding one completed booking and a review of it. -/
def dupReviewState : ReviewState :=
  { bookings := [completedBookingEx], reviews := [reviewEx] }

def secretEx : String := "user-secret"
def adminSecretEx : String := "admin-secret"

/-- A secrets environment with distinct user and admin secrets. -/
def envEx : AuthEnv := { jwtSecret := secretEx, adminSecret := adminSecretEx }

/-- A verifier accepting any token signed with the user secret as
user 5. -/
def verifyEx : String → String → Option DocId :=
  fun _ s => if s = secretEx then some 5 else none

/-- A user with role `admin` and id 5. -/
def adminUserEx : User := { id := 5, role := .admin }

/-- A user store holding only `adminUserEx`. -/
def findUserEx : DocId → Option User :=
  fun uid => if uid = 5 then some adminUserEx else none

def headerEx : String := "tok-abc"

/-- A fresh user for the registration fixture. -/
def newUserEx : User := { id := 9, role := .guest }

def authTokenEx : String := "jwt-xyz"

/-! ### Helper lemmas -/

lemma bestDiscountAux_mem (total : ℚ) (prev : Discount) (l : List Discount) :
    bestDiscountAux total prev l ∈ prev :: l := by
  induction l generalizing prev with
  | nil => simp [bestDiscountAux]
  | cons c rest ih =>
    simp only [bestDiscountAux]
    split
    · have := ih c
      simp only [List.mem_cons] at this ⊢
      tauto
    · have := ih prev
      simp only [List.mem_cons] at this ⊢
      tauto

lemma bestDiscountAux_le (total : ℚ) (prev : Discount) (l : List Discount) :
    discountValueOn total prev ≤
      discountValueOn total (bestDiscountAux total prev l) ∧
    ∀ d ∈ l, discountValueOn total d ≤
      discountValueOn total (bestDiscountAux total prev l) := by
  induction l generalizing prev with
  | nil => exact ⟨le_refl _, by simp⟩
  | cons c rest ih =>
    simp only [bestDiscountAux]
    split
    · rename_i hc
      obtain ⟨h1, h2⟩ := ih c
      refine ⟨le_trans (le_of_lt hc) h1, ?_⟩
      intro d hd
      rcases List.mem_cons.mp hd with rfl | hd2
      · exact h1
      · exact h2 d hd2
    · rename_i hc
      obtain ⟨h1, h2⟩ := ih prev
      refine ⟨h1, ?_⟩
      intro d hd
      rcases List.mem_cons.mp hd with rfl | hd2
      · exact le_trans (not_lt.mp hc) h1
      · exact h2 d hd2

lemma bestDiscountAux_first (total : ℚ) (prev : Discount) (l : List Discount) :
    (prev :: l).find?
        (fun d => decide (discountValueOn total d =
          discountValueOn total (bestDiscountAux total prev l))) =
      some (bestDiscountAux total prev l) := by
  induction l generalizing prev with
  | nil => simp [bestDiscountAux]
  | cons c rest ih =>
    simp only [bestDiscountAux]
    split
    · rename_i hc
      have hb := (bestDiscountAux_le total c rest).1
      have hprev : discountValueOn total prev ≠
          discountValueOn total (bestDiscountAux total c rest) :=
        ne_of_lt (lt_of_lt_of_le hc hb)
      rw [List.find?_cons_of_neg _ (by simpa using hprev)]
      exact ih c
    · rename_i hc
      have hcle : discountValueOn total c ≤ discountValueOn total prev :=
        not_lt.mp hc
      have hple := (bestDiscountAux_le total prev rest).1
      by_cases hp : discountValueOn total prev =
          discountValueOn total (bestDiscountAux total prev rest)
      · have hih := ih prev
        rw [List.find?_cons_of_pos _ (by simpa using hp)] at hih
        rw [List.find?_cons_of_pos _ (by simpa using hp)]
        exact hih
      · have hcne : discountValueOn total c ≠
            discountValueOn total (bestDiscountAux total prev rest) := by
          intro hceq
          exact hp (le_antisymm hple (hceq ▸ hcle))
        have hih := ih prev
        rw [List.find?_cons_of_neg _ (by simpa using hp)] at hih
        rw [List.find?_cons_of_neg _ (by simpa using hp),
          List.find?_cons_of_neg _ (by simpa using hcne)]
        exact hih

lemma assignTagsFrom_length (n start : ℕ) (l : List HostRec) :
    (assignTagsFrom n start l).length = l.length := by
  induction l generalizing start with
  | nil => rfl
  | cons x t ih => simp [assignTagsFrom, ih]

lemma assignTagsFrom_get (n : ℕ) (l : List HostRec) :
    ∀ (start i : ℕ) (h : i < (assignTagsFrom n start l).length)
      (h2 : i < l.length),
      (assignTagsFrom n start l).get ⟨i, h⟩ =
        { l.get ⟨i, h2⟩ with hostTag := hostTagFor (start + i) n } := by
  induction l with
  | nil => intro start i h h2; simp at h2
  | cons x t ih =>
    intro start i h h2
    cases i with
    | zero => simp [assignTagsFrom]
    | succ j =>
      have hj : j < (assignTagsFrom n (start + 1) t).length := by
        simpa [assignTagsFrom] using h
      have hj2 : j < t.length := by simpa using h2
      have step : (assignTagsFrom n start (x :: t)).get ⟨j + 1, h⟩ =
          (assignTagsFrom n (start + 1) t).get ⟨j, hj⟩ := rfl
      rw [step, ih (start + 1) j hj hj2]
      have harith : start + 1 + j = start + (j + 1) := by omega
      rw [harith]
      rfl

/-! ### Claim theorems -/

/-- C4: the number of nights equals the ceiling of the date difference
divided by one day of milliseconds, and a checkout exactly 24 hours
(86400000 ms) after checkin yields one night. -/
theorem nightsOf_ceiling_of_difference (checkIn checkOut t : ℤ) :
    nightsOf checkIn checkOut =
      Int.ceil (((checkOut - checkIn : ℤ) : ℚ) / (86400000 : ℚ)) ∧
    nightsOf t (t + 86400000) = 1 := by
  constructor
  · norm_num [nightsOf, msPerDay]
  · have hsub : ((t + 86400000 - t : ℤ) : ℚ) = 86400000 := by
      push_cast; ring
    rw [nightsOf, hsub]
    norm_num [msPerDay]

/-- C5: in a host list sorted descending by earnings, the host at
0-based index `i` among `N` hosts receives `gold` iff `(i+1)/N ≤ 0.01`,
else `silver` iff `≤ 0.10`, else `bronze` iff `≤ 0.30`, else no tag;
with 100 hosts, ranks 1, 5, 25 and 50 receive gold, silver, bronze and
no tag respectively. -/
theorem assignTags_percentile_spec (hosts : List HostRec)
    (hsorted : hosts.Sorted fun a b => b.earnings ≤ a.earnings)
    (i : ℕ) (h : i < (assignTags hosts).length) :
    (((assignTags hosts).get ⟨i, h⟩).hostTag = some HostTag.gold ↔
        ((i : ℚ) + 1) / (hosts.length : ℚ) ≤ 1 / 100) ∧
    (((assignTags hosts).get ⟨i, h⟩).hostTag = some HostTag.silver ↔
        (¬ ((i : ℚ) + 1) / (hosts.length : ℚ) ≤ 1 / 100 ∧
          ((i : ℚ) + 1) / (hosts.length : ℚ) ≤ 1 / 10)) ∧
    (((assignTags hosts).get ⟨i, h⟩).hostTag = some HostTag.bronze ↔
        (¬ ((i : ℚ) + 1) / (hosts.length : ℚ) ≤ 1 / 10 ∧
          ((i : ℚ) + 1) / (hosts.length : ℚ) ≤ 3 / 10)) ∧
    (((assignTags hosts).get ⟨i, h⟩).hostTag = none ↔
        ¬ ((i : ℚ) + 1) / (hosts.length : ℚ) ≤ 3 / 10) ∧
    hostTagFor 0 100 = some HostTag.gold ∧
    hostTagFor 4 100 = some HostTag.silver ∧
    hostTagFor 24 100 = some HostTag.bronze ∧
    hostTagFor 49 100 = none := by
  have hi : i < hosts.length := by
    simpa [assignTags, assignTagsFrom_length] using h
  have hget : ((assignTags hosts).get ⟨i, h⟩).hostTag = hostTagFor i hosts.length := by
    have h2 := assignTagsFrom_get hosts.length hosts 0 i h hi
    rw [show (assignTags hosts).get ⟨i, h⟩ =
        (assignTagsFrom hosts.length 0 hosts).get ⟨i, h⟩ from rfl, h2]
    simp
  rw [hget]
  refine ⟨?_, ?_, ?_, ?_, ?_, ?_, ?_, ?_⟩
  · simp only [hostTagFor]
    split_ifs with h1 h2 h3
    · exact iff_of_true rfl h1
    · exact iff_of_false (by simp) h1
    · exact iff_of_false (by simp) h1
    · exact iff_of_false (by simp) h1
  · simp only [hostTagFor]
    split_ifs with h1 h2 h3
    · exact iff_of_false (by simp) fun hcon => hcon.1 h1
    · exact iff_of_true rfl ⟨h1, h2⟩
    · exact iff_of_false (by simp) fun hcon => h2 hcon.2
    · exact iff_of_false (by simp) fun hcon => h2 hcon.2
  · simp only [hostTagFor]
    split_ifs with h1 h2 h3
    · refine iff_of_false (by simp) fun hcon => hcon.1 ?_
      calc ((i : ℚ) + 1) / (hosts.length : ℚ) ≤ 1 / 100 := h1
        _ ≤ 1 / 10 := by norm_num
    · exact iff_of_false (by simp) fun hcon => hcon.1 h2
    · exact iff_of_true rfl ⟨h2, h3⟩
    · exact iff_of_false (by simp) fun hcon => h3 hcon.2
  · simp only [hostTagFor]
    split_ifs with h1 h2 h3
    · refine iff_of_false (by simp) fun hcon => hcon ?_
      calc ((i : ℚ) + 1) / (hosts.length : ℚ) ≤ 1 / 100 := h1
        _ ≤ 3 / 10 := by norm_num
    · refine iff_of_false (by simp) fun hcon => hcon ?_
      calc ((i : ℚ) + 1) / (hosts.length : ℚ) ≤ 1 / 10 := h2
        _ ≤ 3 / 10 := by norm_num
    · exact iff_of_false (by simp) fun hcon => hcon h3
    · exact iff_of_true rfl h3
  · simp only [hostTagFor]
    norm_num
  · simp only [hostTagFor]
    norm_num
  · simp only [hostTagFor]
    norm_num
  · simp only [hostTagFor]
    norm_num

/-- Witness for `assignTags_percentile_spec` at a one-host list. -/
theorem assignTags_percentile_spec_witness :
    hostTagFor 0 100 = some HostTag.gold ∧ hostTagFor 49 100 = none := by
  have h := assignTags_percentile_spec [⟨1, 5, none⟩] (by decide) 0 (by decide)
  exact ⟨h.2.2.2.2.1, h.2.2.2.2.2.2.2⟩

/-- C1 (amended): the eligibility filter keeps a discount iff its
validity window covers the stay and its `minNights`, when present and
nonzero, is at most `nights` (a stored `minNights` of 0 is treated like
an absent one); with no eligible discount the result is
`(nights * rate, 0)`; otherwise the discount amount is the maximum
candidate amount over the eligible discounts (percentage discounts
valued at `rawTotal * value / 100`, fixed ones at `value`), the chosen
discount is the first eligible discount attaining that maximum, and
`finalTotal = rawTotal - discountAmount`. -/
theorem computePrice_discount_selection (rate : ℚ) (checkIn checkOut : ℤ)
    (discounts : List Discount) :
    (∀ d : Discount,
      isApplicableDiscount checkIn checkOut (nightsOf checkIn checkOut) d = true ↔
        (d.validFrom ≤ checkIn ∧ checkOut ≤ d.validUntil ∧
          ∀ m, d.minNights = some m →
            m = 0 ∨ m ≤ ((nightsOf checkIn checkOut : ℤ) : ℚ))) ∧
    (discounts.filter
        (isApplicableDiscount checkIn checkOut (nightsOf checkIn checkOut)) = [] →
      computePrice rate checkIn checkOut discounts =
        (((nightsOf checkIn checkOut : ℤ) : ℚ) * rate, 0)) ∧
    (∀ d0 ds,
      discounts.filter
          (isApplicableDiscount checkIn checkOut (nightsOf checkIn checkOut)) =
        d0 :: ds →
      computePrice rate checkIn checkOut discounts =
        (((nightsOf checkIn checkOut : ℤ) : ℚ) * rate -
            discountValueOn (((nightsOf checkIn checkOut : ℤ) : ℚ) * rate)
              (bestDiscountAux (((nightsOf checkIn checkOut : ℤ) : ℚ) * rate) d0 ds),
          discountValueOn (((nightsOf checkIn checkOut : ℤ) : ℚ) * rate)
            (bestDiscountAux (((nightsOf checkIn checkOut : ℤ) : ℚ) * rate) d0 ds)) ∧
      bestDiscountAux (((nightsOf checkIn checkOut : ℤ) : ℚ) * rate) d0 ds ∈ d0 :: ds ∧
      (∀ d ∈ d0 :: ds,
        discountValueOn (((nightsOf checkIn checkOut : ℤ) : ℚ) * rate) d ≤
          discountValueOn (((nightsOf checkIn checkOut : ℤ) : ℚ) * rate)
            (bestDiscountAux (((nightsOf checkIn checkOut : ℤ) : ℚ) * rate) d0 ds)) ∧
      (d0 :: ds).find?
          (fun d => decide (discountValueOn (((nightsOf checkIn checkOut : ℤ) : ℚ) * rate) d =
            discountValueOn (((nightsOf checkIn checkOut : ℤ) : ℚ) * rate)
              (bestDiscountAux (((nightsOf checkIn checkOut : ℤ) : ℚ) * rate) d0 ds))) =
        some (bestDiscountAux (((nightsOf checkIn checkOut : ℤ) : ℚ) * rate) d0 ds)) := by
  refine ⟨?_, ?_, ?_⟩
  · intro d
    simp only [isApplicableDiscount, minNightsOk, Bool.and_eq_true, decide_eq_true_eq]
    cases hm : d.minNights with
    | none => simp
    | some m => simp [and_assoc]
  · intro hfil
    simp only [computePrice, hfil]
  · intro d0 ds hfil
    refine ⟨?_, bestDiscountAux_mem _ d0 ds, ?_, bestDiscountAux_first _ d0 ds⟩
    · simp only [computePrice, hfil]
    · intro d hd
      rcases List.mem_cons.mp hd with rfl | hd2
      · exact (bestDiscountAux_le _ d ds).1
      · exact (bestDiscountAux_le _ d0 ds).2 d hd2

lemma nightsOf_four_nights : nightsOf 0 345600000 = 4 := by
  rw [nightsOf]
  norm_num [msPerDay]

/-- Witness for `computePrice_discount_selection`: the spec's worked
example, rawTotal 400, discountAmount 80, finalTotal 320. -/
theorem computePrice_discount_selection_witness :
    computePrice 100 0 345600000 [exampleDiscount] = (320, 80) := by
  have hfil : List.filter
      (isApplicableDiscount 0 345600000 (nightsOf 0 345600000))
      [exampleDiscount] = [exampleDiscount] := by
    simp [isApplicableDiscount, minNightsOk, exampleDiscount,
      nightsOf_four_nights]
    norm_num
  have h := ((computePrice_discount_selection 100 0 345600000
    [exampleDiscount]).2.2 exampleDiscount [] hfil).1
  rw [h, nightsOf_four_nights]
  simp only [bestDiscountAux, discountValueOn, exampleDiscount]
  norm_num

lemma nightsOf_one_night : nightsOf 0 86400000 = 1 := by
  rw [nightsOf]
  norm_num [msPerDay]

lemma nightsOf_reversed_day : nightsOf 86400000 0 = -1 := by
  rw [nightsOf]
  norm_num [msPerDay]
  rw [show (-1 : ℚ) = ((-1 : ℤ) : ℚ) by norm_num, Int.ceil_intCast]

lemma nightsOf_reversed_two_days : nightsOf 172800000 86400000 = -1 := by
  rw [nightsOf]
  norm_num [msPerDay]
  rw [show (-1 : ℚ) = ((-1 : ℤ) : ℚ) by norm_num, Int.ceil_intCast]

/-- C1 counterexample: with checkIn one day after checkOut (nights = -1)
and a 20% discount stored with `minNights: 0` whose window fields pass
both window comparisons, no discount is eligible in the claim's sense
(`minNights = 0 ≤ nights = -1` fails), yet the code treats the falsy
`minNights` as absent, selects the discount, and returns a
discountAmount of -20 rather than the claimed 0. -/
theorem computePrice_claim_eligibility_cx :
    claimEligibleDiscount 86400000 0 (nightsOf 86400000 0)
        zeroMinNightsDiscount = false ∧
    (computePrice 100 86400000 0 [zeroMinNightsDiscount]).2 = -20 := by
  constructor
  · rw [nightsOf_reversed_day]
    simp [claimEligibleDiscount, zeroMinNightsDiscount]
  · have hfil : List.filter
        (isApplicableDiscount 86400000 0 (nightsOf 86400000 0))
        [zeroMinNightsDiscount] = [zeroMinNightsDiscount] := by
      simp [isApplicableDiscount, minNightsOk, zeroMinNightsDiscount]
    simp only [computePrice, hfil]
    rw [nightsOf_reversed_day]
    simp only [bestDiscountAux, discountValueOn, zeroMinNightsDiscount]
    norm_num

/-- C3 counterexample: a completing computation (the property exists)
whose fixed discount of 200 exceeds the raw total of 100, yielding a
negative finalTotal of -100; the claim asserts both outputs are
non-negative. -/
theorem computePrice_negative_total_cx :
    (computePrice 100 0 86400000 [oversizedFixedDiscount]).1 = -100 ∧
    (-100 : ℚ) < 0 := by
  constructor
  · have hfil : List.filter
        (isApplicableDiscount 0 86400000 (nightsOf 0 86400000))
        [oversizedFixedDiscount] = [oversizedFixedDiscount] := by
      simp [isApplicableDiscount, minNightsOk, oversizedFixedDiscount]
    simp only [computePrice, hfil]
    rw [nightsOf_one_night]
    simp only [bestDiscountAux, discountValueOn, oversizedFixedDiscount]
    norm_num
  · norm_num

/-- C3 (amended): a missing property yields the NoPropertyFound
response (404) and no booking; discountAmount and finalTotal are
non-negative provided nights is non-negative, the rate is non-negative,
every discount value is non-negative, percentage values are at most
100, and fixed values are at most the raw total - without these bounds
(which the code does not enforce) the outputs can be negative. -/
theorem createBooking_notFound_and_nonneg :
    (∀ (newId guestId propertyId : DocId) (checkIn checkOut guestsCount : ℤ)
        (intent : ℚ → Except Unit PaymentIntent),
      1 ≤ guestsCount →
      createBooking newId guestId propertyId none checkIn checkOut guestsCount
          intent = (.propertyNotFound, none)) ∧
    (∀ (rate : ℚ) (checkIn checkOut : ℤ) (discounts : List Discount),
      0 ≤ rate → 0 ≤ nightsOf checkIn checkOut →
      (∀ d ∈ discounts, 0 ≤ d.value) →
      (∀ d ∈ discounts, d.discountType = .percentage → d.value ≤ 100) →
      (∀ d ∈ discounts, d.discountType = .fixed →
        d.value ≤ ((nightsOf checkIn checkOut : ℤ) : ℚ) * rate) →
      0 ≤ (computePrice rate checkIn checkOut discounts).2 ∧
      0 ≤ (computePrice rate checkIn checkOut discounts).1) := by
  constructor
  · intro newId guestId propertyId checkIn checkOut guestsCount intent hg
    have hlt : ¬ guestsCount < 1 := by omega
    simp only [createBooking, if_neg hlt]
  · intro rate checkIn checkOut discounts hrate hn hval hperc hfix
    have hraw : (0 : ℚ) ≤ ((nightsOf checkIn checkOut : ℤ) : ℚ) * rate :=
      mul_nonneg (by exact_mod_cast hn) hrate
    cases hfil : discounts.filter
        (isApplicableDiscount checkIn checkOut (nightsOf checkIn checkOut)) with
    | nil =>
      simp only [computePrice, hfil]
      exact ⟨le_refl 0, hraw⟩
    | cons d0 ds =>
      simp only [computePrice, hfil]
      have hmem : bestDiscountAux (((nightsOf checkIn checkOut : ℤ) : ℚ) * rate)
          d0 ds ∈ discounts := by
        have h1 := bestDiscountAux_mem
          (((nightsOf checkIn checkOut : ℤ) : ℚ) * rate) d0 ds
        rw [← hfil] at h1
        exact (List.mem_filter.mp h1).1
      set best := bestDiscountAux (((nightsOf checkIn checkOut : ℤ) : ℚ) * rate) d0 ds
      have hamt : 0 ≤ discountValueOn (((nightsOf checkIn checkOut : ℤ) : ℚ) * rate) best ∧
          discountValueOn (((nightsOf checkIn checkOut : ℤ) : ℚ) * rate) best ≤
            ((nightsOf checkIn checkOut : ℤ) : ℚ) * rate := by
        cases hdt : best.discountType with
        | percentage =>
          have hv := hval best hmem
          have hv100 := hperc best hmem hdt
          constructor
          · simp only [discountValueOn, hdt]
            positivity
          · simp only [discountValueOn, hdt]
            calc ((nightsOf checkIn checkOut : ℤ) : ℚ) * rate * best.value / 100 ≤
                ((nightsOf checkIn checkOut : ℤ) : ℚ) * rate * 100 / 100 := by gcongr
              _ = ((nightsOf checkIn checkOut : ℤ) : ℚ) * rate := by ring
        | fixed =>
          have hv := hval best hmem
          have hvfix := hfix best hmem hdt
          constructor
          · simpa only [discountValueOn, hdt] using hv
          · simpa only [discountValueOn, hdt] using hvfix
      exact ⟨hamt.1, by simpa using sub_nonneg.mpr hamt.2⟩

/-- Witness for `createBooking_notFound_and_nonneg`: a missing property
is a 404, and a no-discount one-night stay at 100 has non-negative
outputs. -/
theorem createBooking_notFound_and_nonneg_witness :
    createBooking 1 2 3 none 0 86400000 1 okIntent = (.propertyNotFound, none) ∧
    0 ≤ (computePrice 100 0 86400000 []).2 ∧
    0 ≤ (computePrice 100 0 86400000 []).1 := by
  refine ⟨createBooking_notFound_and_nonneg.1 1 2 3 0 86400000 1 okIntent
    (by norm_num), ?_, ?_⟩
  · exact (createBooking_notFound_and_nonneg.2 100 0 86400000 []
      (by norm_num) (by rw [nightsOf_one_night]; norm_num)
      (by simp) (by simp) (by simp)).1
  · exact (createBooking_notFound_and_nonneg.2 100 0 86400000 []
      (by norm_num) (by rw [nightsOf_one_night]; norm_num)
      (by simp) (by simp) (by simp)).2

/-- C2 counterexample: checkIn one day after checkOut gives
nights = -1 ≤ 0, but there is no InvalidDateRange failure - the handler
still creates (saves) a booking. -/
theorem createBooking_nonpositive_nights_cx :
    nightsOf 172800000 86400000 ≤ 0 ∧
    ((createBooking 1 2 3 (some smallProperty) 172800000 86400000 1
        okIntent).2).isSome = true := by
  constructor
  · rw [nightsOf_reversed_two_days]
    norm_num
  · rfl

/-- C2 (amended): the handler performs no date-range validation and has
no InvalidDateRange error; whenever computed nights ≤ 0 and the
property exists and payment-intent creation succeeds, the request still
succeeds and a booking is created, its totalAmount being the (now
non-positive-raw) computed price. -/
theorem createBooking_nonpositive_nights_proceeds
    (newId guestId propertyId : DocId) (p : Property)
    (checkIn checkOut guestsCount : ℤ)
    (intent : ℚ → Except Unit PaymentIntent) (pintent : PaymentIntent)
    (hn : nightsOf checkIn checkOut ≤ 0) (hg : 1 ≤ guestsCount)
    (hintent : ∀ amt, intent amt = .ok pintent) :
    ∃ b : Booking,
      createBooking newId guestId propertyId (some p) checkIn checkOut
          guestsCount intent = (.bookingCreated b pintent.clientSecret, some b) ∧
      b.totalAmount = (computePrice p.pricePerNight checkIn checkOut p.discounts).1 ∧
      b.checkIn = checkIn ∧ b.checkOut = checkOut := by
  have hlt : ¬ guestsCount < 1 := by omega
  simp only [createBooking, if_neg hlt, hintent]
  exact ⟨_, rfl, rfl, rfl, rfl⟩

/-- Witness for `createBooking_nonpositive_nights_proceeds` at the
concrete reversed stay. -/
theorem createBooking_nonpositive_nights_proceeds_witness :
    ∃ b : Booking,
      createBooking 1 2 3 (some smallProperty) 172800000 86400000 1 okIntent =
        (.bookingCreated b succeededIntent.clientSecret, some b) ∧
      b.totalAmount = (computePrice smallProperty.pricePerNight 172800000
        86400000 smallProperty.discounts).1 ∧
      b.checkIn = 172800000 ∧ b.checkOut = 86400000 :=
  createBooking_nonpositive_nights_proceeds 1 2 3 smallProperty 172800000
    86400000 1 okIntent succeededIntent
    (by rw [nightsOf_reversed_two_days]; norm_num) (by norm_num)
    (fun _ => rfl)

/-- C8 counterexample: a booking whose checkOut (epoch 0) is strictly
before its checkIn (one day later) is created and stored, violating the
claimed invariant checkOut > checkIn. -/
theorem createBooking_checkout_before_checkin_cx :
    ((createBooking 1 2 3 (some smallProperty) 86400000 0 1 okIntent).2.map
        (fun b => decide (b.checkIn < b.checkOut))) = some false := rfl

/-- C8 (amended): the system does not enforce checkOut > checkIn:
booking creation validates only the date format, so whenever the
property exists and payment-intent creation succeeds a booking is
created and stored with exactly the submitted dates, even when
checkOut ≤ checkIn. -/
theorem createBooking_stores_unvalidated_dates
    (newId guestId propertyId : DocId) (p : Property)
    (checkIn checkOut guestsCount : ℤ)
    (intent : ℚ → Except Unit PaymentIntent) (pintent : PaymentIntent)
    (hord : checkOut ≤ checkIn) (hg : 1 ≤ guestsCount)
    (hintent : ∀ amt, intent amt = .ok pintent) :
    ∃ b : Booking,
      createBooking newId guestId propertyId (some p) checkIn checkOut
          guestsCount intent = (.bookingCreated b pintent.clientSecret, some b) ∧
      b.checkIn = checkIn ∧ b.checkOut = checkOut := by
  have hlt : ¬ guestsCount < 1 := by omega
  simp only [createBooking, if_neg hlt, hintent]
  exact ⟨_, rfl, rfl, rfl⟩

/-- Witness for `createBooking_stores_unvalidated_dates` at a stay with
checkOut strictly before checkIn. -/
theorem createBooking_stores_unvalidated_dates_witness :
    ∃ b : Booking,
      createBooking 1 2 3 (some smallProperty) 86400000 0 1 okIntent =
        (.bookingCreated b succeededIntent.clientSecret, some b) ∧
      b.checkIn = 86400000 ∧ b.checkOut = 0 :=
  createBooking_stores_unvalidated_dates 1 2 3 smallProperty 86400000 0 1
    okIntent succeededIntent (by norm_num) (by norm_num) (fun _ => rfl)

/-- C7: on successful payment confirmation the stored booking is the
old one with status `confirmed`, payment status `paid` and the gateway
transaction id recorded, and the stored property is the old one with
exactly one new availability entry appended marking
`[checkIn, checkOut]` unavailable - every prior availability entry and
every other property field is unchanged, with no merging. -/
theorem confirmBooking_success_effects (b : Booking) (userId : DocId)
    (confirmIntent : Option DocId → Except Unit PaymentIntent)
    (sms : Except Unit Unit) (property : Property) (pintent : PaymentIntent)
    (hguest : b.guest = userId)
    (hpay : confirmIntent b.paymentIntentId = .ok pintent)
    (hst : pintent.status = succeededStr) :
    (confirmBooking (some b) userId confirmIntent sms property).response =
      .confirmedOk ∧
    (confirmBooking (some b) userId confirmIntent sms property).booking =
      some { b with status := .confirmed, paymentStatus := .paid
                    transactionId := some pintent.id } ∧
    (confirmBooking (some b) userId confirmIntent sms property).property =
      { property with availability := property.availability ++
          [{ startDate := b.checkIn, endDate := b.checkOut
             isAvailable := false }] } := by
  have hne : ¬ b.guest ≠ userId := by simp [hguest]
  simp only [confirmBooking, if_neg hne, hpay, if_pos hst]
  cases sms with
  | ok _ => exact ⟨rfl, rfl, rfl⟩
  | error _ => exact ⟨rfl, rfl, rfl⟩

/-- Witness for `confirmBooking_success_effects`: a concrete booking
confirmed while the SMS send fails. -/
theorem confirmBooking_success_effects_witness :
    (confirmBooking (some pendingBookingEx) 2 okConfirmIntent (.error ())
        smallProperty).response = .confirmedOk ∧
    (confirmBooking (some pendingBookingEx) 2 okConfirmIntent (.error ())
        smallProperty).property =
      { smallProperty with availability := smallProperty.availability ++
          [{ startDate := pendingBookingEx.checkIn
             endDate := pendingBookingEx.checkOut, isAvailable := false }] } := by
  have h := confirmBooking_success_effects pendingBookingEx 2 okConfirmIntent
    (.error ()) smallProperty succeededIntent rfl rfl rfl
  exact ⟨h.1, h.2.2⟩

/-- C9: the SMS outcome changes neither the response nor the stored
booking or property during confirmation (a failure is only logged); a
payment-confirmation exception instead propagates as a 500 with no
state change; a payment-intent exception during booking creation is a
500 with no booking; and a verification-email exception during
registration is a 500. -/
theorem confirm_sms_swallowed_services_propagate :
    (∀ (fb : Option Booking) (userId : DocId)
        (confirmIntent : Option DocId → Except Unit PaymentIntent)
        (s1 s2 : Except Unit Unit) (property : Property),
      (confirmBooking fb userId confirmIntent s1 property).response =
        (confirmBooking fb userId confirmIntent s2 property).response ∧
      (confirmBooking fb userId confirmIntent s1 property).booking =
        (confirmBooking fb userId confirmIntent s2 property).booking ∧
      (confirmBooking fb userId confirmIntent s1 property).property =
        (confirmBooking fb userId confirmIntent s2 property).property) ∧
    (∀ (b : Booking) (userId : DocId)
        (confirmIntent : Option DocId → Except Unit PaymentIntent)
        (sms : Except Unit Unit) (property : Property),
      b.guest = userId →
      confirmIntent b.paymentIntentId = .error () →
      confirmBooking (some b) userId confirmIntent sms property =
        ⟨.serverError, some b, property, []⟩) ∧
    (∀ (newId guestId propertyId : DocId) (p : Property)
        (checkIn checkOut guestsCount : ℤ)
        (intent : ℚ → Except Unit PaymentIntent),
      1 ≤ guestsCount →
      intent (computePrice p.pricePerNight checkIn checkOut p.discounts).1 =
        .error () →
      createBooking newId guestId propertyId (some p) checkIn checkOut
          guestsCount intent = (.serverError, none)) ∧
    (∀ (newUser : User) (authToken : String),
      registerUser none newUser (.error ()) authToken =
        (.serverError, some newUser)) := by
  refine ⟨?_, ?_, ?_, ?_⟩
  · intro fb userId confirmIntent s1 s2 property
    cases fb with
    | none => exact ⟨rfl, rfl, rfl⟩
    | some b =>
      by_cases hg : b.guest ≠ userId
      · simp only [confirmBooking, if_pos hg]
        refine ⟨?_, ?_, ?_⟩ <;> trivial
      · simp only [confirmBooking, if_neg hg]
        cases hci : confirmIntent b.paymentIntentId with
        | error e => exact ⟨rfl, rfl, rfl⟩
        | ok intent =>
          by_cases hst : intent.status = succeededStr
          · simp only [if_pos hst]
            cases s1 <;> cases s2 <;> refine ⟨?_, ?_, ?_⟩ <;> trivial
          · simp only [if_neg hst]
            refine ⟨?_, ?_, ?_⟩ <;> trivial
  · intro b userId confirmIntent sms property hguest herr
    have hne : ¬ b.guest ≠ userId := by simp [hguest]
    simp only [confirmBooking, if_neg hne, herr]
  · intro newId guestId propertyId p checkIn checkOut guestsCount intent hg herr
    have hlt : ¬ guestsCount < 1 := by omega
    simp only [createBooking, if_neg hlt, herr]
  · intro newUser authToken
    rfl

/-- Witness for `confirm_sms_swallowed_services_propagate`: a concrete
confirmation whose payment confirmation throws is a 500 with the
booking and property untouched. -/
theorem confirm_sms_swallowed_services_propagate_witness :
    confirmBooking (some pendingBookingEx) 2 errConfirmIntent (.ok ())
        smallProperty =
      ⟨.serverError, some pendingBookingEx, smallProperty, []⟩ :=
  confirm_sms_swallowed_services_propagate.2.1 pendingBookingEx 2
    errConfirmIntent (.ok ()) smallProperty rfl rfl

lemma findReviewForBooking_append_self (reviews : List Review) (r : Review) :
    findReviewForBooking (reviews ++ [r]) r.booking ≠ none := by
  intro hnone
  rw [findReviewForBooking, List.find?_eq_none] at hnone
  have hmem : r ∈ reviews ++ [r] := List.mem_append_right _ (List.mem_singleton.mpr rfl)
  exact absurd (by simp) (hnone r hmem)

lemma countP_eq_zero_of_find_none (reviews : List Review) (bid : DocId)
    (h : findReviewForBooking reviews bid = none) :
    reviews.countP (fun r => decide (r.booking = bid)) = 0 := by
  rw [findReviewForBooking, List.find?_eq_none] at h
  rw [List.countP_eq_zero]
  intro r hmem
  simpa using h r hmem

/-- C6: a review is created exactly through the path requiring a
completed booking matching (guest, property, booking id) and no
existing review of that booking, appending exactly one review whose
rating passed the `[1,5]` validation; with an existing review the
request fails with the duplicate-review conflict and an unchanged
state; a second attempt right after a successful creation conflicts;
and the at-most-one-review-per-booking invariant is preserved. -/
theorem addReview_unique_per_booking
    (newId guestId bookingId propertyId : DocId) (rating : ℤ)
    (commentLen : ℕ) (st : ReviewState) :
    (∀ r st2,
      addReview newId guestId bookingId propertyId rating commentLen st =
        (.created r, st2) →
      1 ≤ rating ∧ rating ≤ 5 ∧ 10 ≤ commentLen ∧
      (∃ b, findCompletedBooking st.bookings bookingId guestId propertyId =
        some b) ∧
      findReviewForBooking st.reviews bookingId = none ∧
      st2.bookings = st.bookings ∧
      st2.reviews = st.reviews ++ [r] ∧
      r = mkReview newId guestId bookingId propertyId rating) ∧
    (¬ (rating < 1 ∨ 5 < rating ∨ commentLen < 10) →
      (∃ b, findCompletedBooking st.bookings bookingId guestId propertyId =
        some b) →
      findReviewForBooking st.reviews bookingId ≠ none →
      addReview newId guestId bookingId propertyId rating commentLen st =
        (.reviewExists, st)) ∧
    (∀ r st2,
      addReview newId guestId bookingId propertyId rating commentLen st =
        (.created r, st2) →
      ∀ (n2 g2 p2 : DocId) (rating2 : ℤ) (cl2 : ℕ) (b2 : Booking),
        ¬ (rating2 < 1 ∨ 5 < rating2 ∨ cl2 < 10) →
        findCompletedBooking st2.bookings bookingId g2 p2 = some b2 →
        addReview n2 g2 bookingId p2 rating2 cl2 st2 = (.reviewExists, st2)) ∧
    ((∀ bid : DocId,
        st.reviews.countP (fun r => decide (r.booking = bid)) ≤ 1) →
      ∀ bid : DocId,
        ((addReview newId guestId bookingId propertyId rating commentLen
            st).2.reviews.countP (fun r => decide (r.booking = bid))) ≤ 1) := by
  have hcreate : ∀ r st2,
      addReview newId guestId bookingId propertyId rating commentLen st =
        (.created r, st2) →
      ¬ (rating < 1 ∨ 5 < rating ∨ commentLen < 10) ∧
      (∃ b, findCompletedBooking st.bookings bookingId guestId propertyId =
        some b) ∧
      findReviewForBooking st.reviews bookingId = none ∧
      st2.bookings = st.bookings ∧ st2.reviews = st.reviews ++ [r] ∧
      r = mkReview newId guestId bookingId propertyId rating := by
    intro r st2 heq
    by_cases hv : rating < 1 ∨ 5 < rating ∨ commentLen < 10
    · simp only [addReview] at heq
      rw [if_pos hv] at heq
      simp only [Prod.mk.injEq] at heq
      exact absurd heq.1 (by simp)
    · simp only [addReview] at heq
      rw [if_neg hv] at heq
      cases hb : findCompletedBooking st.bookings bookingId guestId propertyId with
      | none =>
        rw [hb] at heq
        simp only [Prod.mk.injEq] at heq
        exact absurd heq.1 (by simp)
      | some b =>
        rw [hb] at heq
        cases hr : findReviewForBooking st.reviews bookingId with
        | some r0 =>
          rw [hr] at heq
          simp only [Prod.mk.injEq] at heq
          exact absurd heq.1 (by simp)
        | none =>
          rw [hr] at heq
          simp only [Prod.mk.injEq, AddReviewResponse.created.injEq] at heq
          obtain ⟨hrq, hst2⟩ := heq
          refine ⟨hv, ⟨b, rfl⟩, rfl, ?_, ?_, hrq.symm⟩
          · rw [← hst2]
          · rw [← hst2, ← hrq]
  have hdup : ¬ (rating < 1 ∨ 5 < rating ∨ commentLen < 10) →
      (∃ b, findCompletedBooking st.bookings bookingId guestId propertyId =
        some b) →
      findReviewForBooking st.reviews bookingId ≠ none →
      addReview newId guestId bookingId propertyId rating commentLen st =
        (.reviewExists, st) := by
    intro hv ⟨b, hb⟩ hr
    cases hrv : findReviewForBooking st.reviews bookingId with
    | none => exact absurd hrv hr
    | some r0 =>
      simp only [addReview]
      rw [if_neg hv, hb, hrv]
  refine ⟨?_, hdup, ?_, ?_⟩
  · intro r st2 heq
    obtain ⟨hv, hb, hr, h1, h2, h3⟩ := hcreate r st2 heq
    push_neg at hv
    exact ⟨by omega, by omega, by omega, hb, hr, h1, h2, h3⟩
  · intro r st2 heq n2 g2 p2 rating2 cl2 b2 hv2 hb2
    obtain ⟨hv, hb, hr, hbk, hrv, hrq⟩ := hcreate r st2 heq
    have hrbid : r.booking = bookingId := by rw [hrq]; rfl
    have hne : findReviewForBooking st2.reviews bookingId ≠ none := by
      rw [hrv, ← hrbid]
      exact findReviewForBooking_append_self st.reviews r
    cases hrv2 : findReviewForBooking st2.reviews bookingId with
    | none => exact absurd hrv2 hne
    | some r0 =>
      simp only [addReview]
      rw [if_neg hv2, hb2, hrv2]
  · intro hinv bid
    by_cases hv : rating < 1 ∨ 5 < rating ∨ commentLen < 10
    · simp only [addReview]
      rw [if_pos hv]
      exact hinv bid
    · simp only [addReview]
      rw [if_neg hv]
      cases hb : findCompletedBooking st.bookings bookingId guestId propertyId with
      | none => exact hinv bid
      | some b =>
        cases hr : findReviewForBooking st.reviews bookingId with
        | some r0 => exact hinv bid
        | none =>
          simp only [List.countP_append]
          by_cases hbd : bookingId = bid
          · have hzero := countP_eq_zero_of_find_none st.reviews bid (hbd ▸ hr)
            have hone : List.countP (fun r => decide (r.booking = bid))
                [mkReview newId guestId bookingId propertyId rating] ≤ 1 := by
              simp only [List.countP_cons, List.countP_nil]
              split <;> norm_num
            omega
          · have hone : List.countP (fun r => decide (r.booking = bid))
                [mkReview newId guestId bookingId propertyId rating] = 0 := by
              simp [List.countP_cons, mkReview, hbd]
            have := hinv bid
            omega

/-- Witness for `addReview_unique_per_booking`: a second review of the
already-reviewed completed booking 20 is rejected as a duplicate. -/
theorem addReview_unique_per_booking_witness :
    addReview 32 2 20 3 4 15 dupReviewState = (.reviewExists, dupReviewState) :=
  (addReview_unique_per_booking 32 2 20 3 4 15 dupReviewState).2.1
    (by norm_num) ⟨completedBookingEx, rfl⟩ (by decide)

lemma authHost_eval_empty (verify : String → String → Option DocId)
    (findUser : DocId → Option User) (env : AuthEnv) (h : String)
    (htok : extractToken h = emptyToken) :
    authenticateHost verify findUser env (some h) =
      .unauthorized noTokenMsg := by
  simp only [authenticateHost]
  rw [if_pos htok]

lemma authHost_eval_verify_none (verify : String → String → Option DocId)
    (findUser : DocId → Option User) (env : AuthEnv) (h : String)
    (htok : ¬ extractToken h = emptyToken)
    (hv : verify (extractToken h) env.jwtSecret = none) :
    authenticateHost verify findUser env (some h) =
      .unauthorized invalidTokenMsg := by
  simp only [authenticateHost]
  rw [if_neg htok, hv]

lemma authHost_eval_user_none (verify : String → String → Option DocId)
    (findUser : DocId → Option User) (env : AuthEnv) (h : String) (uid : DocId)
    (htok : ¬ extractToken h = emptyToken)
    (hv : verify (extractToken h) env.jwtSecret = some uid)
    (hf : findUser uid = none) :
    authenticateHost verify findUser env (some h) =
      .unauthorized hostRequiredMsg := by
  simp only [authenticateHost]
  rw [if_neg htok]
  simp only [hv, hf]

lemma authHost_eval_user_some (verify : String → String → Option DocId)
    (findUser : DocId → Option User) (env : AuthEnv) (h : String)
    (uid : DocId) (user : User)
    (htok : ¬ extractToken h = emptyToken)
    (hv : verify (extractToken h) env.jwtSecret = some uid)
    (hf : findUser uid = some user) :
    authenticateHost verify findUser env (some h) =
      (if user.role ≠ .host ∧ user.role ≠ .admin then
        .unauthorized hostRequiredMsg else .ok user) := by
  simp only [authenticateHost]
  rw [if_neg htok]
  simp only [hv, hf]

lemma authenticateHost_ok_iff (verify : String → String → Option DocId)
    (findUser : DocId → Option User) (env : AuthEnv) (header : Option String)
    (u : User) :
    authenticateHost verify findUser env header = .ok u ↔
      ∃ h, header = some h ∧ extractToken h ≠ emptyToken ∧
        ∃ uid, verify (extractToken h) env.jwtSecret = some uid ∧
          findUser uid = some u ∧ (u.role = .host ∨ u.role = .admin) := by
  cases header with
  | none => simp [authenticateHost]
  | some h =>
    by_cases htok : extractToken h = emptyToken
    · rw [authHost_eval_empty verify findUser env h htok]
      refine iff_of_false (by simp) ?_
      rintro ⟨h2, hh2, hne, -⟩
      injection hh2 with hh
      exact hne (hh ▸ htok)
    · cases hv : verify (extractToken h) env.jwtSecret with
      | none =>
        rw [authHost_eval_verify_none verify findUser env h htok hv]
        refine iff_of_false (by simp) ?_
        rintro ⟨h2, hh2, hne, uid, hvu, -⟩
        injection hh2 with hh
        rw [← hh, hv] at hvu
        exact Option.noConfusion hvu
      | some uid =>
        cases hf : findUser uid with
        | none =>
          rw [authHost_eval_user_none verify findUser env h uid htok hv hf]
          refine iff_of_false (by simp) ?_
          rintro ⟨h2, hh2, hne, uid2, hvu, hfu, -⟩
          injection hh2 with hh
          rw [← hh, hv] at hvu
          injection hvu with huid
          rw [← huid, hf] at hfu
          exact Option.noConfusion hfu
        | some user =>
          rw [authHost_eval_user_some verify findUser env h uid user htok hv hf]
          by_cases hrole : user.role ≠ .host ∧ user.role ≠ .admin
          · rw [if_pos hrole]
            refine iff_of_false (by simp) ?_
            rintro ⟨h2, hh2, hne, uid2, hvu, hfu, hor⟩
            injection hh2 with hh
            rw [← hh, hv] at hvu
            injection hvu with huid
            rw [← huid, hf] at hfu
            injection hfu with hu
            rcases hor with h1 | h1
            · exact hrole.1 (hu ▸ h1)
            · exact hrole.2 (hu ▸ h1)
          · rw [if_neg hrole]
            have hor : user.role = .host ∨ user.role = .admin := by
              rcases not_and_or.mp hrole with h1 | h1
              · exact Or.inl (not_not.mp h1)
              · exact Or.inr (not_not.mp h1)
            constructor
            · intro hok
              injection hok with hu
              refine ⟨h, rfl, htok, uid, hv, ?_, ?_⟩
              · rw [← hu]
                exact hf
              · rw [← hu]
                exact hor
            · rintro ⟨h2, hh2, hne, uid2, hvu, hfu, -⟩
              injection hh2 with hh
              rw [← hh, hv] at hvu
              injection hvu with huid
              rw [← huid, hf] at hfu
              injection hfu with hu
              rw [hu]

/-- C10: `authenticateHost` verifies the bearer token against the
ordinary-user secret only (its result does not depend on the admin
secret); the request proceeds exactly when the header carries a
non-empty token that verifies under `JWT_SECRET` to a known user whose
role is `host` or `admin` - in particular a user with role `admin`
passes - and in every other case the middleware responds 401. -/
theorem authenticateHost_gate_spec (verify : String → String → Option DocId)
    (findUser : DocId → Option User) (env : AuthEnv) (header : Option String) :
    (∀ env2 : AuthEnv, env2.jwtSecret = env.jwtSecret →
      authenticateHost verify findUser env2 header =
        authenticateHost verify findUser env header) ∧
    (∀ u : User,
      authenticateHost verify findUser env header = .ok u ↔
        ∃ h, header = some h ∧ extractToken h ≠ emptyToken ∧
          ∃ uid, verify (extractToken h) env.jwtSecret = some uid ∧
            findUser uid = some u ∧ (u.role = .host ∨ u.role = .admin)) ∧
    ((∃ msg, authenticateHost verify findUser env header = .unauthorized msg) ↔
      ¬ ∃ u, authenticateHost verify findUser env header = .ok u) ∧
    (∀ h uid u, header = some h → extractToken h ≠ emptyToken →
      verify (extractToken h) env.jwtSecret = some uid →
      findUser uid = some u → u.role = .admin →
      authenticateHost verify findUser env header = .ok u) := by
  refine ⟨?_, ?_, ?_, ?_⟩
  · intro env2 he
    simp only [authenticateHost, he]
  · intro u
    exact authenticateHost_ok_iff verify findUser env header u
  · cases hres : authenticateHost verify findUser env header with
    | unauthorized m => simp
    | ok u => simp
  · intro h uid u hh htok hv hf hrole
    subst hh
    rw [authenticateHost_ok_iff]
    exact ⟨h, rfl, htok, uid, hv, hf, Or.inr hrole⟩

/-- Witness for `authenticateHost_gate_spec`: the concrete admin user 5
passes the host gate with a token verified under the user secret. -/
theorem authenticateHost_gate_spec_witness :
    authenticateHost verifyEx findUserEx envEx (some headerEx) =
      .ok adminUserEx :=
  (authenticateHost_gate_spec verifyEx findUserEx envEx
      (some headerEx)).2.2.2 headerEx 5 adminUserEx rfl (by decide)
    (by decide) (by decide) rfl

end AbodeX
